import Mathlib

/-!
Verification of the grok-spicy control engine: a shallow embedding of the
generate-verify-correct loops (character portraits, keyframes, scene videos),
the moderation-retry wrapper, the download retry helper, the event bus and the
orchestrator's observer notifications, together with theorems settling the
specification claims. Remote calls are modelled by explicit oracles (one value
per call site and call index); floats become rationals; fallible code returns
Except.
-/

namespace GrokSpicy

/- ── Embedded data model and operations ───────────────────── -/

def CONSISTENCY_THRESHOLD : ℚ := 80 / 100

def EXTENDED_RETRY_THRESHOLD : ℚ := 50 / 100

def MAX_CHAR_ATTEMPTS : Nat := 3

def MAX_KEYFRAME_ITERS : Nat := 3

def MAX_VIDEO_CORRECTIONS : Nat := 2

def MODERATED_URL_SENTINEL : String := "moderated_content"

def MAX_REWORD_ATTEMPTS : Nat := 2

def DOWNLOAD_RETRIES : Nat := 3

/-- Char-list test: pat occurs at the start of s. -/
def charsStartWith : List Char → List Char → Bool
  | [], _ => true
  | _ :: _, [] => false
  | p :: ps, c :: cs => decide (p = c) && charsStartWith ps cs

/-- Char-list substring test: pat occurs somewhere inside s. -/
def charsContain (pat : List Char) : List Char → Bool
  | [] => pat.isEmpty
  | c :: cs => charsStartWith pat (c :: cs) || charsContain pat cs

/-- Moderation-block detector from client.py: a result URL is blocked when the
sentinel occurs as a substring (Python: MODERATED_URL_SENTINEL in url). -/
def is_moderated (url : String) : Bool :=
  charsContain MODERATED_URL_SENTINEL.toList url.toList

/-- Oracle for the remote calls made by the moderation-retry wrapper: gen maps
a call index and a prompt to the result URL returned by generate_fn, and
reword is the remote rewording of a blocked prompt. -/
structure ModerationEnv where
  gen : Nat → String → String
  reword : String → String

/-- The reword-and-retry loop of generate_with_moderation_retry. State:
remaining loop iterations (range max_rewords), the next call index, the
current prompt and result, and a ghost counter of rewords performed. Returns
(result, final prompt, still_moderated, rewords performed). -/
def modRetryGo (env : ModerationEnv) :
    Nat → Nat → String → String → Nat → String × String × Bool × Nat
  | 0, _call, prompt, result, rewords =>
      (result, prompt, is_moderated result, rewords)
  | n + 1, call, prompt, result, rewords =>
      if is_moderated result then
        let p := env.reword prompt
        modRetryGo env n (call + 1) p (env.gen call p) (rewords + 1)
      else
        (result, prompt, false, rewords)

/-- client.py generate_with_moderation_retry: one initial generation, then the
reword loop. Fourth component is the ghost count of rewords. -/
def generate_with_moderation_retry (env : ModerationEnv) (prompt : String)
    (max_rewords : Nat) : String × String × Bool × Nat :=
  modRetryGo env max_rewords 1 prompt (env.gen 0 prompt) 0

/-- Outcome of one requests.get attempt inside download. -/
inductive DownloadOutcome
  | success
  | timeout
  | connectionError
  | httpError (code : Nat)
deriving DecidableEq

/-- Error raised by download: RuntimeError after exhausting the retries, or the
HTTPError surfaced by raise_for_status. -/
inductive DownloadError
  | exhausted
  | http (code : Nat)
deriving DecidableEq

/-- True exactly for the exception classes download catches and retries. -/
def transientOutcome (o : DownloadOutcome) : Bool :=
  match o with
  | .timeout => true
  | .connectionError => true
  | _ => false

/-- The attempt loop of download. net gives the outcome of the 1-based attempt
number; state carries the made-attempt count and the ghost list of sleep
durations (time.sleep(2 * attempt) between retries). Returns
(result, attempts made, sleeps). -/
def downloadGo (net : Nat → DownloadOutcome) (path : String) (retries : Nat) :
    Nat → Nat → List Nat → Except DownloadError String × Nat × List Nat
  | 0, made, sleeps => (Except.error DownloadError.exhausted, made, sleeps)
  | n + 1, made, sleeps =>
      let attempt := made + 1
      match net attempt with
      | .success => (Except.ok path, attempt, sleeps)
      | .timeout =>
          if attempt < retries then
            downloadGo net path retries n attempt (sleeps ++ [2 * attempt])
          else (Except.error DownloadError.exhausted, attempt, sleeps)
      | .connectionError =>
          if attempt < retries then
            downloadGo net path retries n attempt (sleeps ++ [2 * attempt])
          else (Except.error DownloadError.exhausted, attempt, sleeps)
      | .httpError c => (Except.error (DownloadError.http c), attempt, sleeps)

/-- client.py download: up to DOWNLOAD_RETRIES attempts, retrying only timeouts
and connection errors, sleeping 2 * attempt seconds between attempts; a
non-retried exception propagates immediately; success returns the path. -/
def download (net : Nat → DownloadOutcome) (path : String) :
    Except DownloadError String × Nat × List Nat :=
  downloadGo net path DOWNLOAD_RETRIES DOWNLOAD_RETRIES 0 []

/-- A pipeline event as in events.py. -/
structure Event where
  type : String
  run_id : Nat
  data : List (String × String)
deriving DecidableEq

/-- The event bus state: the registered subscriber queue ids in subscription
order, the contents of every queue (by id), and the next fresh queue id. -/
structure EventBus where
  subscribers : List Nat
  queues : Nat → List Event
  nextId : Nat

/-- A bus with no subscribers. -/
def EventBus.empty : EventBus :=
  ⟨[], fun _ => [], 0⟩

/-- events.py subscribe: create a new empty queue, register it, return it. -/
def EventBus.subscribe (b : EventBus) : Nat × EventBus :=
  (b.nextId,
    { subscribers := b.subscribers ++ [b.nextId]
      queues := fun i => if i = b.nextId then [] else b.queues i
      nextId := b.nextId + 1 })

/-- events.py unsubscribe: remove the queue from the subscriber list; removing
an absent queue is silently ignored (contextlib.suppress(ValueError)). -/
def EventBus.unsubscribe (b : EventBus) (q : Nat) : EventBus :=
  { b with subscribers := b.subscribers.erase q }

/-- One q.put_nowait(event) call: append the event to queue i. -/
def enqueue (queues : Nat → List Event) (i : Nat) (e : Event) :
    Nat → List Event :=
  fun j => if j = i then queues j ++ [e] else queues j

/-- events.py publish: non-blocking enqueue of the event into every currently
registered subscriber queue. -/
def EventBus.publish (b : EventBus) (e : Event) : EventBus :=
  { b with queues := b.subscribers.foldl (fun qs i => enqueue qs i e) b.queues }

/-- schemas.py ConsistencyScore (per_character omitted; unused by control
flow). Scores are rationals standing for the validated floats in [0, 1]. -/
structure ConsistencyScore where
  overall_score : ℚ
  issues : List String
  fix_prompt : Option String
deriving DecidableEq

/-- Outcome of one loop attempt: the moderation-retry wrapper either ends
still blocked, or yields an artifact (url, downloaded path) whose verifier
call then produced the given score. -/
inductive GenAttempt
  | blocked
  | ok (url : String) (path : String) (score : ConsistencyScore)

/-- The zero-initialized best record (best = score 0.0, url "", path ""). -/
structure BestRec where
  score : ℚ
  url : String
  path : String
deriving DecidableEq

def BestRec.init : BestRec := ⟨0, "", ""⟩

/-- schemas.py CharacterAsset (fields driven by the loop). -/
structure CharacterAsset where
  portrait_url : String
  portrait_path : String
  consistency_score : ℚ
  generation_attempts : Nat
deriving DecidableEq

/-- The attempt loop of generate_character_sheet. out gives the outcome of the
1-based attempt; state: remaining attempts, the Python attempt variable, the
best record, and the ghost list of verifier scores observed so far. A blocked
attempt is skipped (continue) but still advances the attempt index; otherwise
the best is replaced on strict improvement and the loop stops as soon as the
score reaches the threshold. -/
def charGo (out : Nat → GenAttempt) (threshold : ℚ) :
    Nat → Nat → BestRec → List ℚ → BestRec × Nat × List ℚ
  | 0, attempt, best, obs => (best, attempt, obs)
  | n + 1, attempt, best, obs =>
      let i := attempt + 1
      match out i with
      | .blocked => charGo out threshold n i best obs
      | .ok url path score =>
          let obs2 := obs ++ [score.overall_score]
          let best2 :=
            if best.score < score.overall_score then
              BestRec.mk score.overall_score url path
            else best
          if threshold ≤ score.overall_score then (best2, i, obs2)
          else charGo out threshold n i best2 obs2

/-- tasks/characters.py generate_character_sheet: run the attempt loop from the
zero-initialized best and package the result; also returns the ghost observed
score list. -/
def generate_character_sheet (out : Nat → GenAttempt) (threshold : ℚ)
    (max_attempts : Nat) : CharacterAsset × List ℚ :=
  let r := charGo out threshold max_attempts 0 BestRec.init []
  (⟨r.1.url, r.1.path, r.1.score, r.2.1⟩, r.2.2)

/-- The observed-score trace of the character loop, reconstructed from the
oracle alone (the loop's control flow does not depend on the best record). -/
def charObserved (out : Nat → GenAttempt) (threshold : ℚ) :
    Nat → Nat → List ℚ
  | 0, _ => []
  | n + 1, attempt =>
      let i := attempt + 1
      match out i with
      | .blocked => charObserved out threshold n i
      | .ok _ _ score =>
          if threshold ≤ score.overall_score then [score.overall_score]
          else score.overall_score :: charObserved out threshold n i

/-- prompts.py fix_prompt_from_issues: the explicit fix text wins when truthy,
otherwise a canned instruction built from the issue list. -/
def fix_prompt_from_issues (issues : List String) (fix_text : Option String) :
    String :=
  match fix_text with
  | some t =>
      if t = "" then
        "Fix ONLY these issues, keep everything else identical: " ++
          String.intercalate "; " issues
      else t
  | none =>
      "Fix ONLY these issues, keep everything else identical: " ++
        String.intercalate "; " issues

/-- The image request issued by one keyframe iteration: iteration 1 is a
multi-image composition over the reference URLs, iterations at least two are a
single-image edit of the best URL so far with a targeted fix prompt. -/
inductive SampleRequest
  | compose (refUrls : List String)
  | edit (imageUrl : String) (fixPrompt : String)
deriving DecidableEq

def SampleRequest.isEdit : SampleRequest → Bool
  | .compose _ => false
  | .edit _ _ => true

/-- Mutable loop state of compose_keyframe: the best record, the last
verifier score (None until one verification ran) and the last fix_text. -/
structure KeyframeState where
  best : BestRec
  scoreOpt : Option ConsistencyScore
  fixText : Option String

/-- tasks/keyframes.py ref slot construction: at most two character portraits
plus, when the previous frame URL is truthy and a slot remains, the previous
scene's frame. -/
def build_ref_urls (portraits : List String) (prev : Option String) :
    List String :=
  let refs := portraits.take 2
  match prev with
  | some u => if u ≠ "" ∧ refs.length < 3 then refs ++ [u] else refs
  | none => refs

/-- The iteration loop of compose_keyframe. State: remaining iterations, the
Python iteration variable, the loop state, the ghost trace of image requests
issued, and the ghost list of verifier scores observed. A still-moderated
iteration is skipped but the request was issued and the index advances. -/
def kfGo (out : Nat → GenAttempt) (threshold : ℚ) (refUrls : List String) :
    Nat → Nat → KeyframeState → List SampleRequest → List ℚ →
      KeyframeState × Nat × List SampleRequest × List ℚ
  | 0, iter, st, reqs, obs => (st, iter, reqs, obs)
  | n + 1, iter, st, reqs, obs =>
      let i := iter + 1
      let req : SampleRequest :=
        if i = 1 then SampleRequest.compose refUrls
        else
          SampleRequest.edit st.best.url
            (fix_prompt_from_issues
              (match st.scoreOpt with
               | some s => s.issues
               | none => []) st.fixText)
      match out i with
      | .blocked => kfGo out threshold refUrls n i st (reqs ++ [req]) obs
      | .ok url path score =>
          let obs2 := obs ++ [score.overall_score]
          let best2 :=
            if st.best.score < score.overall_score then
              BestRec.mk score.overall_score url path
            else st.best
          if threshold ≤ score.overall_score then
            (⟨best2, some score, st.fixText⟩, i, reqs ++ [req], obs2)
          else
            kfGo out threshold refUrls n i ⟨best2, some score, score.fix_prompt⟩
              (reqs ++ [req]) obs2

/-- schemas.py KeyframeAsset (fields driven by the loop). -/
structure KeyframeAsset where
  scene_id : Nat
  keyframe_url : String
  keyframe_path : String
  consistency_score : ℚ
  edit_passes : Nat
deriving DecidableEq

/-- tasks/keyframes.py compose_keyframe: build the reference slots, run the
iteration loop from the zero-initialized state, and package the best result;
also returns the ghost request trace and observed scores. -/
def compose_keyframe (out : Nat → GenAttempt) (threshold : ℚ) (max_iters : Nat)
    (scene_id : Nat) (portraits : List String) (prev : Option String) :
    KeyframeAsset × List SampleRequest × List ℚ :=
  let refUrls := build_ref_urls portraits prev
  let r := kfGo out threshold refUrls max_iters 0 ⟨BestRec.init, none, none⟩ [] []
  (⟨scene_id, r.1.best.url, r.1.best.path, r.1.best.score, r.2.1 - 1⟩,
    r.2.2.1, r.2.2.2)

/-- Resolution of a scene's present characters against the generated character
map (Python: [char_map[n] for n in scene.characters_present if n in char_map],
then taking portrait urls). -/
def scene_portraits (char_map : List (String × String)) (present : List String) :
    List String :=
  present.filterMap fun n => List.lookup n char_map

/-- A scene as the keyframe stage sees it: its id, the names present, and the
oracle describing what the remote service returns for this scene's keyframe
loop calls. -/
structure SceneK where
  scene_id : Nat
  characters_present : List String
  oracle : Nat → GenAttempt

/-- pipeline.py STEP 3: keyframes are composed sequentially; prev_url starts
as None and after each scene becomes that scene's returned keyframe_url. Each
stage entry records the asset and the reference slots used for that scene. -/
def keyframeStage (char_map : List (String × String)) (threshold : ℚ)
    (max_iters : Nat) :
    List SceneK → Option String → List (KeyframeAsset × List String)
  | [], _ => []
  | sc :: rest, prev =>
      let portraits := scene_portraits char_map sc.characters_present
      let r := compose_keyframe sc.oracle threshold max_iters sc.scene_id
        portraits prev
      (r.1, build_ref_urls portraits prev) ::
        keyframeStage char_map threshold max_iters rest (some r.1.keyframe_url)

/-- Outcome of one moderation-retried video generation call. -/
inductive GenOutcome
  | blocked
  | ok (url : String)

/-- Oracle for the remote calls of generate_scene_video: the initial
image-to-video call and its verification score, the k-th correction call and
its score, and the extended-retry call and its score. -/
structure VideoEnv where
  initGen : GenOutcome
  initScore : ConsistencyScore
  corrGen : Nat → GenOutcome
  corrScore : Nat → ConsistencyScore
  retryGen : GenOutcome
  retryScore : ConsistencyScore

/-- schemas.py VideoAsset (fields driven by the loop). -/
structure VideoAsset where
  scene_id : Nat
  video_url : String
  consistency_score : ℚ
  correction_passes : Nat
deriving DecidableEq

/-- The correction while-loop of generate_scene_video: while the score is
below threshold, the correction budget remains and the scene is
correction-eligible, increment corrections, issue the correction call; a
still-moderated correction breaks out keeping the incremented counter;
otherwise the current url and score are replaced. State: remaining fuel, the
corrections counter, the current url and score, and the ghost observed-score
list. -/
def corrGo (env : VideoEnv) (threshold : ℚ) (max_corrections : Nat)
    (eligible : Bool) :
    Nat → Nat → String → ConsistencyScore → List ℚ →
      Nat × String × ConsistencyScore × List ℚ
  | 0, c, url, s, obs => (c, url, s, obs)
  | n + 1, c, url, s, obs =>
      if s.overall_score < threshold ∧ c < max_corrections ∧ eligible = true then
        match env.corrGen (c + 1) with
        | .blocked => (c + 1, url, s, obs)
        | .ok u =>
            corrGo env threshold max_corrections eligible n (c + 1) u
              (env.corrScore (c + 1))
              (obs ++ [(env.corrScore (c + 1)).overall_score])
      else (c, url, s, obs)

/-- tasks/video.py generate_scene_video: initial generation (a still-moderated
initial video raises), initial consistency check, the correction loop gated on
duration_seconds ≤ 8, then the one-shot extended retry gated on the extended
tier and the distinct lower EXTENDED_RETRY_THRESHOLD. Returns the asset, the
ghost observed-score list, and a ghost flag recording whether the extended
retry was attempted. -/
def generate_scene_video (env : VideoEnv) (threshold : ℚ)
    (max_corrections : Nat) (scene_id : Nat) (duration_seconds : Nat) :
    Except String (VideoAsset × List ℚ × Bool) :=
  let eligible : Bool := decide (duration_seconds ≤ 8)
  match env.initGen with
  | .blocked => Except.error "video still moderated after rewords"
  | .ok url0 =>
      let s0 := env.initScore
      let r := corrGo env threshold max_corrections eligible max_corrections 0
        url0 s0 [s0.overall_score]
      if eligible = false ∧ r.2.2.1.overall_score < EXTENDED_RETRY_THRESHOLD then
        match env.retryGen with
        | .blocked =>
            Except.ok (⟨scene_id, r.2.1, r.2.2.1.overall_score, r.1⟩,
              r.2.2.2, true)
        | .ok u2 =>
            Except.ok (⟨scene_id, u2, env.retryScore.overall_score, r.1⟩,
              r.2.2.2 ++ [env.retryScore.overall_score], true)
      else
        Except.ok (⟨scene_id, r.2.1, r.2.2.1.overall_score, r.1⟩, r.2.2.2, false)

/-- The behaviour of one observer instance: each milestone method either
returns normally or raises (Except.error). on_run_start returns the run id. -/
structure ObsActions where
  on_run_start : Except String Nat
  on_plan : Except String Unit
  on_character : Except String Unit
  on_keyframe : Except String Unit
  on_script : Except String Unit
  on_video_start : Except String Unit
  on_video : Except String Unit
  on_complete : Except String Unit
  on_error : Except String Unit

/-- pipeline.py _notify: fire-and-forget observer call; an exception from the
observer method is caught and logged, so the call always returns normally. -/
def notifyObs (call : Except String Unit) : Except String Unit :=
  match call with
  | Except.ok _ => Except.ok ()
  | Except.error _ => Except.ok ()

/-- The observer-interaction skeleton of pipeline.py video_pipeline:
on_run_start is invoked directly (its result is needed for the run id, and the
call sits before the try block), every other milestone notification goes
through _notify, and a failing body notifies on_error and re-raises. An
error from any sequenced call propagates. -/
def video_pipeline_observer_calls (obs : ObsActions)
    (body : Except String String) : Except String String :=
  Except.bind obs.on_run_start fun _run_id =>
    Except.bind (notifyObs obs.on_plan) fun _ =>
      Except.bind (notifyObs obs.on_character) fun _ =>
        Except.bind (notifyObs obs.on_keyframe) fun _ =>
          Except.bind (notifyObs obs.on_script) fun _ =>
            Except.bind (notifyObs obs.on_video_start) fun _ =>
              Except.bind (notifyObs obs.on_video) fun _ =>
                match body with
                | Except.ok final =>
                    Except.bind (notifyObs obs.on_complete) fun _ =>
                      Except.ok final
                | Except.error e =>
                    Except.bind (notifyObs obs.on_error) fun _ =>
                      Except.error e

/-- A verifier score with the given overall score, no issues, no fix text. -/
def plainScore (q : ℚ) : ConsistencyScore := ⟨q, [], none⟩

/-- Video oracle whose corrections make the score drop: initial 0.70, first
correction 0.50, second correction 0.40. -/
def envDrop : VideoEnv :=
  { initGen := GenOutcome.ok "https://vid/initial.mp4"
    initScore := plainScore (7 / 10)
    corrGen := fun _ => GenOutcome.ok "https://vid/corr.mp4"
    corrScore := fun k => if k = 1 then plainScore (5 / 10) else plainScore (2 / 5)
    retryGen := GenOutcome.ok "https://vid/retry.mp4"
    retryScore := plainScore (3 / 10) }

/-- Video oracle for an extended scene: initial score 0.40 (below the
extended-retry threshold), retry scores 0.70. -/
def envExtended : VideoEnv :=
  { initGen := GenOutcome.ok "https://vid/initial.mp4"
    initScore := plainScore (4 / 10)
    corrGen := fun _ => GenOutcome.ok "https://vid/corr.mp4"
    corrScore := fun _ => plainScore (6 / 10)
    retryGen := GenOutcome.ok "https://vid/retry.mp4"
    retryScore := plainScore (7 / 10) }

/-- Video oracle whose first correction call is still moderated. -/
def envCorrBlocked : VideoEnv :=
  { initGen := GenOutcome.ok "https://vid/initial.mp4"
    initScore := plainScore (6 / 10)
    corrGen := fun _ => GenOutcome.blocked
    corrScore := fun _ => plainScore (6 / 10)
    retryGen := GenOutcome.blocked
    retryScore := plainScore (0) }

/-- Image-loop oracle that always succeeds with score 0.82. -/
def okOracle : Nat → GenAttempt :=
  fun _ => GenAttempt.ok "https://kf/u1.jpg" "kf/p1.jpg" (plainScore (82 / 100))

/-- Image-loop oracle that is always still moderated after rewording. -/
def blockedOracle : Nat → GenAttempt := fun _ => GenAttempt.blocked

/-- Image-loop oracle blocked on the first attempt, clean afterwards. -/
def blockedFirstOracle : Nat → GenAttempt :=
  fun i => if i = 1 then GenAttempt.blocked
    else GenAttempt.ok "https://kf/u2.jpg" "kf/p2.jpg" (plainScore (9 / 10))

def sceneW1 : SceneK := ⟨1, ["Luna"], okOracle⟩

def sceneW2 : SceneK := ⟨2, ["Luna", "Rex"], okOracle⟩

def charMapW : List (String × String) :=
  [("Luna", "https://char/luna.jpg"), ("Rex", "https://char/rex.jpg")]

/- ── Theorems ─────────────────────────────────────────────── -/

theorem modRetryGo_rewords_le (env : ModerationEnv) :
    ∀ n call prompt result rewords,
      (modRetryGo env n call prompt result rewords).2.2.2 ≤ rewords + n := by
  intro n
  induction n with
  | zero => intro call prompt result rewords; simp [modRetryGo]
  | succ n ih =>
      intro call prompt result rewords
      cases h : is_moderated result with
      | true =>
          have hb := ih (call + 1) (env.reword prompt)
            (env.gen call (env.reword prompt)) (rewords + 1)
          simp only [modRetryGo, h, if_true]
          omega
      | false => simp [modRetryGo, h]

theorem modRetryGo_still_eq (env : ModerationEnv) :
    ∀ n call prompt result rewords,
      (modRetryGo env n call prompt result rewords).2.2.1 =
        is_moderated (modRetryGo env n call prompt result rewords).1 := by
  intro n
  induction n with
  | zero => intro call prompt result rewords; simp [modRetryGo]
  | succ n ih =>
      intro call prompt result rewords
      cases h : is_moderated result with
      | true =>
          simpa [modRetryGo, h] using
            ih (call + 1) (env.reword prompt)
              (env.gen call (env.reword prompt)) (rewords + 1)
      | false => simp [modRetryGo, h]

theorem modRetryGo_not_moderated (env : ModerationEnv)
    (n call : Nat) (prompt result : String) (rewords : Nat)
    (h : is_moderated result = false) :
    modRetryGo env n call prompt result rewords = (result, prompt, false, rewords) := by
  cases n with
  | zero => simp [modRetryGo, h]
  | succ n => simp [modRetryGo, h]

/-- C3: the moderation-retry wrapper rewords the prompt at most max_rewords
times; the returned still_moderated flag is true exactly when the last
generation result is still blocked; and when the current result is not blocked
the wrapper returns it immediately without any rewording. -/
theorem moderation_retry_spec (env : ModerationEnv) (prompt : String)
    (max_rewords : Nat) :
    (generate_with_moderation_retry env prompt max_rewords).2.2.2 ≤ max_rewords ∧
    (generate_with_moderation_retry env prompt max_rewords).2.2.1 =
      is_moderated (generate_with_moderation_retry env prompt max_rewords).1 ∧
    (is_moderated (env.gen 0 prompt) = false →
      generate_with_moderation_retry env prompt max_rewords =
        (env.gen 0 prompt, prompt, false, 0)) := by
  refine ⟨?_, ?_, ?_⟩
  · simpa [generate_with_moderation_retry] using
      modRetryGo_rewords_le env max_rewords 1 prompt (env.gen 0 prompt) 0
  · simpa [generate_with_moderation_retry] using
      modRetryGo_still_eq env max_rewords 1 prompt (env.gen 0 prompt) 0
  · intro h
    simpa [generate_with_moderation_retry] using
      modRetryGo_not_moderated env max_rewords 1 prompt (env.gen 0 prompt) 0 h

/-- C3 witness: a concrete environment whose generator is immediately clean. -/
theorem moderation_retry_spec_witness :
    (generate_with_moderation_retry
        ⟨fun _ _ => "https://ok/img.jpg", fun p => p⟩ "a prompt" 2).2.2.2 ≤ 2 ∧
    (generate_with_moderation_retry
        ⟨fun _ _ => "https://ok/img.jpg", fun p => p⟩ "a prompt" 2) =
      ("https://ok/img.jpg", "a prompt", false, 0) := by
  refine ⟨(moderation_retry_spec ⟨fun _ _ => "https://ok/img.jpg", fun p => p⟩
      "a prompt" 2).1, ?_⟩
  exact (moderation_retry_spec ⟨fun _ _ => "https://ok/img.jpg", fun p => p⟩
      "a prompt" 2).2.2 (by decide)

/-- C8: the download helper (a) returns the destination path at once on
success; (b) raises the HTTP error immediately, with no retry, when the
response status is an error; (c) when every attempt hits a transient
timeout/connection failure it makes exactly DOWNLOAD_RETRIES attempts with
linearly increasing backoff sleeps [2, 4] and then raises; (d) it only ever
retries after a transient outcome. -/
theorem download_spec (net : Nat → DownloadOutcome) (path : String) :
    (net 1 = DownloadOutcome.success →
      download net path = (Except.ok path, 1, [])) ∧
    (∀ c, net 1 = DownloadOutcome.httpError c →
      download net path = (Except.error (DownloadError.http c), 1, [])) ∧
    ((∀ i, 1 ≤ i → i ≤ DOWNLOAD_RETRIES → transientOutcome (net i) = true) →
      download net path = (Except.error DownloadError.exhausted, 3, [2, 4])) ∧
    (1 < (download net path).2.1 → transientOutcome (net 1) = true) := by
  refine ⟨?_, ?_, ?_, ?_⟩
  · intro h
    simp [download, downloadGo, DOWNLOAD_RETRIES, h]
  · intro c h
    simp [download, downloadGo, DOWNLOAD_RETRIES, h]
  · intro h
    have h1 := h 1 (by norm_num) (by norm_num [DOWNLOAD_RETRIES])
    have h2 := h 2 (by norm_num) (by norm_num [DOWNLOAD_RETRIES])
    have h3 := h 3 (by norm_num) (by norm_num [DOWNLOAD_RETRIES])
    cases e1 : net 1 <;> rw [e1] at h1 <;> simp [transientOutcome] at h1 <;>
      cases e2 : net 2 <;> rw [e2] at h2 <;> simp [transientOutcome] at h2 <;>
        cases e3 : net 3 <;> rw [e3] at h3 <;> simp [transientOutcome] at h3 <;>
          simp [download, downloadGo, DOWNLOAD_RETRIES, e1, e2, e3]
  · intro h
    cases e1 : net 1 <;>
      simp [download, downloadGo, DOWNLOAD_RETRIES, e1, transientOutcome] at h ⊢

/-- C8 witness: a network that times out twice and then succeeds exercises the
success clause at attempt 1 of a shifted oracle; here we instantiate the
all-transient clause concretely. -/
theorem download_spec_witness :
    download (fun _ => DownloadOutcome.timeout) "output/videos/scene_1.mp4" =
      (Except.error DownloadError.exhausted, 3, [2, 4]) :=
  (download_spec (fun _ => DownloadOutcome.timeout)
      "output/videos/scene_1.mp4").2.2.1 (fun i _ _ => by simp [transientOutcome])

theorem publish_foldl_count (e : Event) :
    ∀ (l : List Nat) (qs : Nat → List Event) (j : Nat),
      (l.foldl (fun qs i => enqueue qs i e) qs) j =
        qs j ++ List.replicate (l.count j) e := by
  intro l
  induction l with
  | nil => intro qs j; simp
  | cons a t ih =>
      intro qs j
      rw [List.foldl_cons, ih]
      by_cases hj : j = a
      · subst hj
        simp [enqueue, List.count_cons, List.replicate_succ]
      · simp [enqueue, hj, List.count_cons, Ne.symm hj]

/-- C4: with distinct registered queues (always true of reachable buses, since
subscribe hands out fresh ids), publish appends the event exactly once to
every subscribed queue, leaves every other queue untouched, delivers nothing
to a queue unsubscribed before the publish, leaves the subscriber list
unchanged, and with zero subscribers it is a no-op that returns normally. -/
theorem eventbus_publish_spec (b : EventBus) (e : Event) (i : Nat)
    (hnd : b.subscribers.Nodup) :
    (i ∈ b.subscribers → (b.publish e).queues i = b.queues i ++ [e]) ∧
    (i ∉ b.subscribers → (b.publish e).queues i = b.queues i) ∧
    (((b.unsubscribe i).publish e).queues i = b.queues i) ∧
    ((b.publish e).subscribers = b.subscribers) ∧
    (b.subscribers = [] → ∀ j, (b.publish e).queues j = b.queues j) := by
  refine ⟨?_, ?_, ?_, rfl, ?_⟩
  · intro hm
    have hc : b.subscribers.count i = 1 := List.count_eq_one_of_mem hnd hm
    simp [EventBus.publish, publish_foldl_count, hc]
  · intro hm
    have hc : b.subscribers.count i = 0 := List.count_eq_zero_of_not_mem hm
    simp [EventBus.publish, publish_foldl_count, hc]
  · have hm : i ∉ (b.unsubscribe i).subscribers := by
      simp only [EventBus.unsubscribe]
      exact fun hc => ((List.Nodup.mem_erase_iff hnd).1 hc).1 rfl
    have hc : (b.unsubscribe i).subscribers.count i = 0 :=
      List.count_eq_zero_of_not_mem hm
    simp only [EventBus.publish, publish_foldl_count, hc, List.replicate_zero,
      List.append_nil]
    rfl
  · intro hz j
    simp [EventBus.publish, hz]

/-- C4 witness: a bus with two live subscriber queues 0 and 1; publishing one
video event delivers it exactly once to queue 0, and a queue 5 that is not
subscribed receives nothing. -/
theorem eventbus_publish_spec_witness :
    (EventBus.publish ⟨[0, 1], fun _ => [], 2⟩ ⟨"video", 7, []⟩).queues 0 =
        [⟨"video", 7, []⟩] ∧
    (EventBus.publish ⟨[0, 1], fun _ => [], 2⟩ ⟨"video", 7, []⟩).queues 5 = [] := by
  constructor
  · exact (eventbus_publish_spec ⟨[0, 1], fun _ => [], 2⟩ ⟨"video", 7, []⟩ 0
      (by decide)).1 (by decide)
  · exact (eventbus_publish_spec ⟨[0, 1], fun _ => [], 2⟩ ⟨"video", 7, []⟩ 5
      (by decide)).2.1 (by decide)

theorem charGo_obs_eq (out : Nat → GenAttempt) (threshold : ℚ) :
    ∀ n attempt best obs,
      (charGo out threshold n attempt best obs).2.2 =
        obs ++ charObserved out threshold n attempt := by
  intro n
  induction n with
  | zero => intro attempt best obs; simp [charGo, charObserved]
  | succ n ih =>
      intro attempt best obs
      cases h : out (attempt + 1) with
      | blocked => simp [charGo, charObserved, h, ih]
      | ok url path score =>
          by_cases ht : threshold ≤ score.overall_score

          · simp [charGo, charObserved, h, ht]
          · simp [charGo, charObserved, h, ht, ih]

theorem charGo_best_eq (out : Nat → GenAttempt) (threshold : ℚ) :
    ∀ n attempt best obs,
      (charGo out threshold n attempt best obs).1.score =
        (charObserved out threshold n attempt).foldl max best.score := by
  intro n
  induction n with
  | zero => intro attempt best obs; simp [charGo, charObserved]
  | succ n ih =>
      intro attempt best obs
      cases h : out (attempt + 1) with
      | blocked => simp [charGo, charObserved, h, ih]
      | ok url path score =>
          by_cases ht : threshold ≤ score.overall_score
          · simp only [charGo, charObserved, h, ht, if_true]
            rcases lt_or_ge best.score score.overall_score with hl | hl
            · simp [hl, max_eq_right (le_of_lt hl)]
            · simp [not_lt.2 hl, max_eq_left hl]
          · simp only [charGo, charObserved, h, ht, if_false]
            rw [ih]
            rcases lt_or_ge best.score score.overall_score with hl | hl
            · simp [hl, List.foldl_cons, max_eq_right (le_of_lt hl)]
            · simp [not_lt.2 hl, List.foldl_cons, max_eq_left hl]

theorem foldl_max_le_mem (b : ℚ) :
    ∀ l : List ℚ, b ≤ l.foldl max b ∧ ∀ q ∈ l, q ≤ l.foldl max b := by
  intro l
  induction l generalizing b with
  | nil => simp
  | cons a t ih =>
      refine ⟨le_trans (le_max_left b a) (ih (max b a)).1, ?_⟩
      intro q hq
      rcases List.mem_cons.1 hq with rfl | hq
      · exact le_trans (le_max_right b q) (ih (max b q)).1
      · exact (ih (max b a)).2 q hq

theorem foldl_max_mem (b : ℚ) :
    ∀ l : List ℚ, l.foldl max b = b ∨ l.foldl max b ∈ l := by
  intro l
  induction l generalizing b with
  | nil => simp
  | cons a t ih =>
      rcases ih (max b a) with h | h
      · rcases le_total b a with hba | hba
        · right
          rw [List.foldl_cons, h, max_eq_right hba]
          exact List.mem_cons_self a t
        · left; rw [List.foldl_cons, h, max_eq_left hba]
      · right; exact List.mem_cons_of_mem a h

theorem kfGo_obs_eq (out : Nat → GenAttempt) (threshold : ℚ)
    (refUrls : List String) :
    ∀ n iter st reqs obs,
      (kfGo out threshold refUrls n iter st reqs obs).2.2.2 =
        obs ++ charObserved out threshold n iter := by
  intro n
  induction n with
  | zero => intro iter st reqs obs; simp [kfGo, charObserved]
  | succ n ih =>
      intro iter st reqs obs
      cases h : out (iter + 1) with
      | blocked => simp [kfGo, charObserved, h, ih]
      | ok url path score =>
          by_cases ht : threshold ≤ score.overall_score
          · simp [kfGo, charObserved, h, ht]
          · simp [kfGo, charObserved, h, ht, ih]

theorem kfGo_best_eq (out : Nat → GenAttempt) (threshold : ℚ)
    (refUrls : List String) :
    ∀ n iter st reqs obs,
      (kfGo out threshold refUrls n iter st reqs obs).1.best.score =
        (charObserved out threshold n iter).foldl max st.best.score := by
  intro n
  induction n with
  | zero => intro iter st reqs obs; simp [kfGo, charObserved]
  | succ n ih =>
      intro iter st reqs obs
      cases h : out (iter + 1) with
      | blocked => simp [kfGo, charObserved, h, ih]
      | ok url path score =>
          by_cases ht : threshold ≤ score.overall_score
          · simp only [kfGo, charObserved, h, ht, if_true]
            rcases lt_or_ge st.best.score score.overall_score with hl | hl
            · simp [hl, max_eq_right (le_of_lt hl)]
            · simp [not_lt.2 hl, max_eq_left hl]
          · simp only [kfGo, charObserved, h, ht, if_false]
            rw [ih]
            rcases lt_or_ge st.best.score score.overall_score with hl | hl
            · simp [hl, List.foldl_cons, max_eq_right (le_of_lt hl)]
            · simp [not_lt.2 hl, List.foldl_cons, max_eq_left hl]

theorem kfGo_reqs_split (out : Nat → GenAttempt) (threshold : ℚ)
    (refUrls : List String) :
    ∀ n iter st reqs obs,
      ∃ δ, (kfGo out threshold refUrls n iter st reqs obs).2.2.1 = reqs ++ δ ∧
        (1 ≤ iter → ∀ r ∈ δ, r.isEdit = true) := by
  intro n
  induction n with
  | zero =>
      intro iter st reqs obs
      exact ⟨[], by simp [kfGo], by intro _ r hr; cases hr⟩
  | succ n ih =>
      intro iter st reqs obs
      have hreq : ∀ (r : SampleRequest), 1 ≤ iter →
          (if iter + 1 = 1 then SampleRequest.compose refUrls else r).isEdit =
            r.isEdit := by
        intro r hi
        have : iter + 1 ≠ 1 := by omega
        simp [this]
      cases h : out (iter + 1) with
      | blocked =>
          obtain ⟨δ, hδ, hed⟩ := ih (iter + 1)
            st (reqs ++ [if iter + 1 = 1 then SampleRequest.compose refUrls
              else SampleRequest.edit st.best.url
                (fix_prompt_from_issues
                  (match st.scoreOpt with
                   | some s => s.issues
                   | none => []) st.fixText)]) obs
          refine ⟨(if iter + 1 = 1 then SampleRequest.compose refUrls
              else SampleRequest.edit st.best.url
                (fix_prompt_from_issues
                  (match st.scoreOpt with
                   | some s => s.issues
                   | none => []) st.fixText)) :: δ, ?_, ?_⟩
          · simp only [kfGo, h]
            rw [hδ]
            simp
          · intro hi r hr
            rcases List.mem_cons.1 hr with rfl | hr
            · rw [hreq _ hi]; rfl
            · exact hed (by omega) r hr
      | ok url path score =>
          by_cases ht : threshold ≤ score.overall_score
          · refine ⟨[if iter + 1 = 1 then SampleRequest.compose refUrls
              else SampleRequest.edit st.best.url
                (fix_prompt_from_issues
                  (match st.scoreOpt with
                   | some s => s.issues
                   | none => []) st.fixText)], ?_, ?_⟩
            · simp [kfGo, h, ht]
            · intro hi r hr
              rcases List.mem_cons.1 hr with rfl | hr
              · rw [hreq _ hi]; rfl
              · cases hr
          · obtain ⟨δ, hδ, hed⟩ := ih (iter + 1)
              ⟨(if st.best.score < score.overall_score then
                  BestRec.mk score.overall_score url path
                else st.best), some score, score.fix_prompt⟩
              (reqs ++ [if iter + 1 = 1 then SampleRequest.compose refUrls
                else SampleRequest.edit st.best.url
                  (fix_prompt_from_issues
                    (match st.scoreOpt with
                     | some s => s.issues
                     | none => []) st.fixText)])
              (obs ++ [score.overall_score])

            refine ⟨(if iter + 1 = 1 then SampleRequest.compose refUrls
                else SampleRequest.edit st.best.url
                  (fix_prompt_from_issues
                    (match st.scoreOpt with
                     | some s => s.issues
                     | none => []) st.fixText)) :: δ, ?_, ?_⟩
            · simp only [kfGo, h, ht, if_false]
              rw [hδ]
              simp
            · intro hi r hr
              rcases List.mem_cons.1 hr with rfl | hr
              · rw [hreq _ hi]; rfl
              · exact hed (by omega) r hr

theorem build_ref_urls_none (portraits : List String) :
    build_ref_urls portraits none = portraits.take 2 := rfl

theorem build_ref_urls_some (portraits : List String) (u : String) :
    build_ref_urls portraits (some u) =
      if u ≠ "" then portraits.take 2 ++ [u] else portraits.take 2 := by
  have hlen : (portraits.take 2).length < 3 := by
    have := List.length_take 2 portraits
    omega
  by_cases hu : u = "" <;> simp [build_ref_urls, hu, hlen]

theorem build_ref_urls_length (portraits : List String) (prev : Option String) :
    (build_ref_urls portraits prev).length ≤ 3 := by
  have hlen : (portraits.take 2).length ≤ 2 := by
    have := List.length_take 2 portraits
    omega
  cases prev with
  | none => simp only [build_ref_urls]; omega
  | some u =>
      rw [build_ref_urls_some]
      by_cases hu : u = ""
      · simp [hu]
      · simp [hu, List.length_append]

theorem keyframeStage_length (char_map : List (String × String)) (threshold : ℚ)
    (max_iters : Nat) :
    ∀ (scenes : List SceneK) (prev : Option String),
      (keyframeStage char_map threshold max_iters scenes prev).length =
        scenes.length := by
  intro scenes
  induction scenes with
  | nil => intro prev; rfl
  | cons sc rest ih => intro prev; simp [keyframeStage, ih]

theorem keyframeStage_get_zero (char_map : List (String × String))
    (threshold : ℚ) (max_iters : Nat) :
    ∀ (scenes : List SceneK) (prev : Option String)
      (kf : KeyframeAsset × List String) (sc : SceneK),
      (keyframeStage char_map threshold max_iters scenes prev).get? 0 = some kf →
      scenes.get? 0 = some sc →
      kf.2 = build_ref_urls (scene_portraits char_map sc.characters_present)
        prev := by
  intro scenes prev kf sc hkf hsc
  cases scenes with
  | nil => cases hsc
  | cons sc0 rest =>
      simp only [List.get?] at hsc
      cases hsc
      simp only [keyframeStage, List.get?] at hkf
      cases hkf
      rfl

theorem keyframeStage_get_succ (char_map : List (String × String))
    (threshold : ℚ) (max_iters : Nat) :
    ∀ (scenes : List SceneK) (prev : Option String) (j : Nat)
      (kf1 kf2 : KeyframeAsset × List String) (sc : SceneK),
      (keyframeStage char_map threshold max_iters scenes prev).get? j = some kf1 →
      (keyframeStage char_map threshold max_iters scenes prev).get? (j + 1) =
        some kf2 →
      scenes.get? (j + 1) = some sc →
      kf2.2 = build_ref_urls (scene_portraits char_map sc.characters_present)
        (some kf1.1.keyframe_url) := by
  intro scenes
  induction scenes with
  | nil => intro prev j kf1 kf2 sc h1 h2 hsc; cases hsc
  | cons sc0 rest ih =>
      intro prev j kf1 kf2 sc h1 h2 hsc
      cases j with
      | zero =>
          simp only [keyframeStage, List.get?] at h1 h2
          cases h1
          simp only [List.get?] at hsc
          exact keyframeStage_get_zero char_map threshold max_iters rest _ kf2 sc
            h2 hsc
      | succ j =>
          simp only [keyframeStage, List.get?] at h1 h2
          simp only [List.get?] at hsc
          exact ih _ j kf1 kf2 sc h1 h2 hsc

theorem keyframeStage_refs_shape (char_map : List (String × String))
    (threshold : ℚ) (max_iters : Nat) :
    ∀ (scenes : List SceneK) (prev : Option String) (p : KeyframeAsset × List String),
      p ∈ keyframeStage char_map threshold max_iters scenes prev →
      ∃ portraits prev2, p.2 = build_ref_urls portraits prev2 := by
  intro scenes
  induction scenes with
  | nil => intro prev p hp; cases hp
  | cons sc0 rest ih =>
      intro prev p hp
      rcases List.mem_cons.1 hp with rfl | hp
      · exact ⟨scene_portraits char_map sc0.characters_present, prev, rfl⟩
      · exact ih _ p hp

theorem corrGo_counter_le (env : VideoEnv) (threshold : ℚ)
    (max_corrections : Nat) (eligible : Bool) :
    ∀ n c url s obs, c ≤ max_corrections →
      (corrGo env threshold max_corrections eligible n c url s obs).1 ≤
        max_corrections := by
  intro n
  induction n with
  | zero => intro c url s obs hc; simpa [corrGo] using hc
  | succ n ih =>
      intro c url s obs hc
      by_cases hg : s.overall_score < threshold ∧ c < max_corrections ∧
          eligible = true
      · simp only [corrGo]
        rw [if_pos hg]
        cases hcg : env.corrGen (c + 1) with
        | blocked => exact hg.2.1
        | ok u => exact ih (c + 1) u _ _ hg.2.1
      · simp only [corrGo]
        rw [if_neg hg]
        exact hc

theorem corrGo_not_eligible (env : VideoEnv) (threshold : ℚ)
    (max_corrections : Nat) :
    ∀ n c url s obs,
      corrGo env threshold max_corrections false n c url s obs =
        (c, url, s, obs) := by
  intro n
  cases n with
  | zero => intro c url s obs; rfl
  | succ n => intro c url s obs; simp [corrGo]

theorem corrGo_last_obs (env : VideoEnv) (threshold : ℚ)
    (max_corrections : Nat) (eligible : Bool) :
    ∀ n c url s obs, obs.getLast? = some s.overall_score →
      (corrGo env threshold max_corrections eligible n c url s obs).2.2.2.getLast? =
        some (corrGo env threshold max_corrections eligible n c url s
          obs).2.2.1.overall_score := by
  intro n
  induction n with
  | zero => intro c url s obs h; exact h
  | succ n ih =>
      intro c url s obs h
      by_cases hg : s.overall_score < threshold ∧ c < max_corrections ∧
          eligible = true
      · simp only [corrGo]
        rw [if_pos hg]
        cases hcg : env.corrGen (c + 1) with
        | blocked => exact h
        | ok u =>
            exact ih (c + 1) u _ _ (by simp [List.getLast?_concat])
      · simp only [corrGo]
        rw [if_neg hg]
        exact h

theorem notifyObs_never_raises (call : Except String Unit) :
    notifyObs call = Except.ok () := by
  cases call <;> rfl

/-- C7 counterexample: an observer whose on_run_start method raises makes the
pipeline itself raise, because pipeline.py calls observer.on_run_start
directly instead of through _notify — so an observer exception does propagate
into the pipeline, refuting the claim as stated. -/
theorem observer_run_start_propagates_counterexample :
    video_pipeline_observer_calls
        ⟨Except.error "observer boom", Except.ok (), Except.ok (), Except.ok (),
          Except.ok (), Except.ok (), Except.ok (), Except.ok (), Except.ok ()⟩
        (Except.ok "output/final_video.mp4") =
      Except.error "observer boom" := rfl

/-- C7 amended: every observer notification other than on_run_start goes
through _notify, which catches and logs any exception, so once on_run_start
returns normally the pipeline outcome equals the body outcome no matter what
any other observer method raises; on_run_start itself is called directly and
its exception propagates. -/
theorem observer_notifications_amended (obs : ObsActions)
    (body : Except String String) (run_id : Nat)
    (h : obs.on_run_start = Except.ok run_id) :
    video_pipeline_observer_calls obs body = body := by
  simp only [video_pipeline_observer_calls, h, notifyObs_never_raises,
    Except.bind]
  cases body <;> rfl

/-- C7 amended witness: a concrete observer whose every notification method
raises, yet the pipeline completes with the body's result. -/
theorem observer_notifications_amended_witness :
    video_pipeline_observer_calls
        ⟨Except.ok 7, Except.error "x1", Except.error "x2", Except.error "x3",
          Except.error "x4", Except.error "x5", Except.error "x6",
          Except.error "x7", Except.error "x8"⟩
        (Except.ok "output/final_video.mp4") =
      Except.ok "output/final_video.mp4" :=
  observer_notifications_amended
    ⟨Except.ok 7, Except.error "x1", Except.error "x2", Except.error "x3",
      Except.error "x4", Except.error "x5", Except.error "x6",
      Except.error "x7", Except.error "x8"⟩
    (Except.ok "output/final_video.mp4") 7 rfl

theorem generate_scene_video_last_obs (env : VideoEnv) (threshold : ℚ)
    (max_corrections scene_id duration_seconds : Nat) (asset : VideoAsset)
    (obs : List ℚ) (retried : Bool)
    (h : generate_scene_video env threshold max_corrections scene_id
        duration_seconds = Except.ok (asset, obs, retried)) :
    obs.getLast? = some asset.consistency_score := by
  cases hg : env.initGen with
  | blocked => simp [generate_scene_video, hg] at h
  | ok url0 =>
      have hlast := corrGo_last_obs env threshold max_corrections
        (decide (duration_seconds ≤ 8)) max_corrections 0 url0 env.initScore
        [env.initScore.overall_score] (by simp)
      simp only [generate_scene_video, hg] at h
      split at h
      · cases hr : env.retryGen with
        | blocked =>
            rw [hr] at h
            simp only [Except.ok.injEq, Prod.mk.injEq] at h
            obtain ⟨h1, h2, h3⟩ := h
            subst h2
            rw [← h1]
            exact hlast
        | ok u2 =>
            rw [hr] at h
            simp only [Except.ok.injEq, Prod.mk.injEq] at h
            obtain ⟨h1, h2, h3⟩ := h
            subst h2
            rw [← h1]
            simp [List.getLast?_concat]
      · simp only [Except.ok.injEq, Prod.mk.injEq] at h
        obtain ⟨h1, h2, h3⟩ := h
        subst h2
        rw [← h1]
        exact hlast

/-- C2: tier exclusivity of generate_scene_video. A scene of at most 8
seconds performs between 0 and max_corrections correction passes and never an
extended retry; a longer scene performs exactly 0 correction passes and the
(at most one) extended retry is attempted exactly when the score after the
single initial generation is below EXTENDED_RETRY_THRESHOLD, without touching
the correction-pass counter. -/
theorem video_tier_spec (env : VideoEnv) (threshold : ℚ)
    (max_corrections scene_id duration_seconds : Nat) (asset : VideoAsset)
    (obs : List ℚ) (retried : Bool)
    (h : generate_scene_video env threshold max_corrections scene_id
        duration_seconds = Except.ok (asset, obs, retried)) :
    (duration_seconds ≤ 8 →
      asset.correction_passes ≤ max_corrections ∧ retried = false) ∧
    (8 < duration_seconds →
      asset.correction_passes = 0 ∧
        (retried = true ↔
          env.initScore.overall_score < EXTENDED_RETRY_THRESHOLD)) := by
  cases hg : env.initGen with
  | blocked => simp [generate_scene_video, hg] at h
  | ok url0 =>
      constructor
      · intro hd
        have he : decide (duration_seconds ≤ 8) = true := decide_eq_true hd
        simp only [generate_scene_video, hg, he] at h
        rw [if_neg (by simp)] at h
        simp only [Except.ok.injEq, Prod.mk.injEq] at h
        obtain ⟨h1, h2, h3⟩ := h
        refine ⟨?_, h3.symm⟩
        rw [← h1]
        exact corrGo_counter_le env threshold max_corrections true
          max_corrections 0 url0 env.initScore [env.initScore.overall_score]
          (Nat.zero_le _)
      · intro hd
        have he : decide (duration_seconds ≤ 8) = false :=
          decide_eq_false (not_le.2 hd)
        simp only [generate_scene_video, hg, he, corrGo_not_eligible] at h
        by_cases hrc : env.initScore.overall_score < EXTENDED_RETRY_THRESHOLD
        · rw [if_pos ⟨trivial, hrc⟩] at h
          cases hr : env.retryGen with
          | blocked =>
              rw [hr] at h
              simp only [Except.ok.injEq, Prod.mk.injEq] at h
              obtain ⟨h1, h2, h3⟩ := h
              rw [← h1]
              exact ⟨rfl, by simp [hrc, ← h3]⟩
          | ok u2 =>
              rw [hr] at h
              simp only [Except.ok.injEq, Prod.mk.injEq] at h
              obtain ⟨h1, h2, h3⟩ := h
              rw [← h1]
              exact ⟨rfl, by simp [hrc, ← h3]⟩
        · rw [if_neg (by simp [hrc])] at h
          simp only [Except.ok.injEq, Prod.mk.injEq] at h
          obtain ⟨h1, h2, h3⟩ := h
          rw [← h1]
          exact ⟨rfl, by simp [hrc, ← h3]⟩

/-- C10: in the correction loop the counter is incremented before the
correction generation call; when that call is still moderated after rewording
the loop breaks but keeps the increment, so correction_passes counts a pass
that produced no new video artifact: the returned video is still the initial
one and no correction score was ever observed. -/
theorem video_correction_counter_spec (env : VideoEnv) (threshold : ℚ)
    (max_corrections scene_id duration_seconds : Nat) (url0 : String)
    (hd : duration_seconds ≤ 8) (hmc : 1 ≤ max_corrections)
    (hg : env.initGen = GenOutcome.ok url0)
    (hs : env.initScore.overall_score < threshold)
    (hb : env.corrGen 1 = GenOutcome.blocked) :
    generate_scene_video env threshold max_corrections scene_id
        duration_seconds =
      Except.ok (⟨scene_id, url0, env.initScore.overall_score, 1⟩,
        [env.initScore.overall_score], false) := by
  have he : decide (duration_seconds ≤ 8) = true := decide_eq_true hd
  obtain ⟨k, rfl⟩ : ∃ k, max_corrections = k + 1 :=
    ⟨max_corrections - 1, by omega⟩
  have hcorr : corrGo env threshold (k + 1) true (k + 1) 0 url0 env.initScore
      [env.initScore.overall_score] =
        (1, url0, env.initScore, [env.initScore.overall_score]) := by
    simp only [corrGo]
    rw [if_pos ⟨hs, by omega, trivial⟩, hb]
  simp only [generate_scene_video, hg, he, hcorr]
  rw [if_neg (by simp)]

/- ── Claim C1 ─────────────────────────────────────────────── -/

theorem envDrop_run :
    generate_scene_video envDrop (8 / 10) 2 1 8 =
      Except.ok (⟨1, "https://vid/corr.mp4", 2 / 5, 2⟩,
        [7 / 10, 5 / 10, 2 / 5], false) := by
  norm_num [generate_scene_video, corrGo, envDrop, plainScore,
    EXTENDED_RETRY_THRESHOLD]

/-- C1 counterexample: in the scene-video loop a correction can lower the
score and the loop returns the last score, not the maximum: with initial score
0.70 and corrections scoring 0.50 then 0.40, the returned asset's score is
0.40 although 0.70 was observed in the same invocation — refuting the claim
that every loop returns the maximum of all observed scores. -/
theorem monotonic_best_counterexample :
    generate_scene_video envDrop (8 / 10) 2 1 8 =
      Except.ok (⟨1, "https://vid/corr.mp4", 2 / 5, 2⟩,
        [7 / 10, 5 / 10, 2 / 5], false) ∧
    (7 / 10 : ℚ) ∈ [(7 : ℚ) / 10, 5 / 10, 2 / 5] ∧
    ¬ (7 / 10 : ℚ) ≤ 2 / 5 := by
  refine ⟨envDrop_run, by simp, by norm_num⟩

theorem charGo_all_blocked (out : Nat → GenAttempt) (threshold : ℚ)
    (hout : ∀ i, out i = GenAttempt.blocked) :
    ∀ n attempt best obs,
      charGo out threshold n attempt best obs = (best, attempt + n, obs) := by
  intro n
  induction n with
  | zero => intro attempt best obs; rfl
  | succ n ih =>
      intro attempt best obs
      rw [show charGo out threshold (n + 1) attempt best obs =
          charGo out threshold n (attempt + 1) best obs by
        simp [charGo, hout (attempt + 1)]]
      rw [ih]
      have hn : attempt + 1 + n = attempt + (n + 1) := by omega
      rw [hn]

theorem kfGo_all_blocked (out : Nat → GenAttempt) (threshold : ℚ)
    (refUrls : List String) (hout : ∀ i, out i = GenAttempt.blocked) :
    ∀ n iter st reqs obs,
      (kfGo out threshold refUrls n iter st reqs obs).1 = st ∧
      (kfGo out threshold refUrls n iter st reqs obs).2.1 = iter + n ∧
      (kfGo out threshold refUrls n iter st reqs obs).2.2.2 = obs := by
  intro n
  induction n with
  | zero => intro iter st reqs obs; exact ⟨rfl, rfl, rfl⟩
  | succ n ih =>
      intro iter st reqs obs
      have hstep : kfGo out threshold refUrls (n + 1) iter st reqs obs =
          kfGo out threshold refUrls n (iter + 1) st
            (reqs ++ [if iter + 1 = 1 then SampleRequest.compose refUrls
              else SampleRequest.edit st.best.url
                (fix_prompt_from_issues
                  (match st.scoreOpt with
                   | some s => s.issues
                   | none => []) st.fixText)]) obs := by
        simp [kfGo, hout (iter + 1)]
      rw [hstep]
      obtain ⟨h1, h2, h3⟩ := ih (iter + 1) st
        (reqs ++ [if iter + 1 = 1 then SampleRequest.compose refUrls
          else SampleRequest.edit st.best.url
            (fix_prompt_from_issues
              (match st.scoreOpt with
               | some s => s.issues
               | none => []) st.fixText)]) obs
      refine ⟨h1, ?_, h3⟩
      rw [h2]
      omega

/-- C1 corrected (amended): the character and keyframe loops return the
maximum of the observed verifier scores folded onto the zero-initialized best
(so the returned score is at least every observed score), while the
scene-video loop returns the score of the last verification performed — the
last observed score, which an unlucky correction or extended retry can make
smaller than an earlier observed score. -/
theorem monotonic_best_amended :
    (∀ (out : Nat → GenAttempt) (threshold : ℚ) (max_attempts : Nat),
      (generate_character_sheet out threshold max_attempts).1.consistency_score =
        (generate_character_sheet out threshold max_attempts).2.foldl max 0 ∧
      ∀ q ∈ (generate_character_sheet out threshold max_attempts).2,
        q ≤ (generate_character_sheet out threshold
          max_attempts).1.consistency_score) ∧
    (∀ (out : Nat → GenAttempt) (threshold : ℚ)
        (max_iters scene_id : Nat) (portraits : List String)
        (prev : Option String),
      (compose_keyframe out threshold max_iters scene_id portraits
          prev).1.consistency_score =
        (compose_keyframe out threshold max_iters scene_id portraits
          prev).2.2.foldl max 0 ∧
      ∀ q ∈ (compose_keyframe out threshold max_iters scene_id portraits
          prev).2.2,
        q ≤ (compose_keyframe out threshold max_iters scene_id portraits
          prev).1.consistency_score) ∧
    (∀ (env : VideoEnv) (threshold : ℚ)
        (max_corrections scene_id duration_seconds : Nat) (asset : VideoAsset)
        (obs : List ℚ) (retried : Bool),
      generate_scene_video env threshold max_corrections scene_id
          duration_seconds = Except.ok (asset, obs, retried) →
        obs.getLast? = some asset.consistency_score) := by
  refine ⟨?_, ?_, ?_⟩
  · intro out threshold max_attempts
    have hobs := charGo_obs_eq out threshold max_attempts 0 BestRec.init []
    have hbest := charGo_best_eq out threshold max_attempts 0 BestRec.init []
    constructor
    · simp only [generate_character_sheet]
      rw [hbest, hobs]
      simp [BestRec.init]
    · intro q hq
      simp only [generate_character_sheet] at hq ⊢
      rw [hobs] at hq
      rw [hbest]
      simp only [List.nil_append] at hq
      simpa [BestRec.init] using
        (foldl_max_le_mem 0 (charObserved out threshold max_attempts 0)).2 q hq
  · intro out threshold max_iters scene_id portraits prev
    have hobs := kfGo_obs_eq out threshold
      (build_ref_urls portraits prev) max_iters 0 ⟨BestRec.init, none, none⟩ [] []
    have hbest := kfGo_best_eq out threshold
      (build_ref_urls portraits prev) max_iters 0 ⟨BestRec.init, none, none⟩ [] []
    constructor
    · simp only [compose_keyframe]
      rw [hbest, hobs]
      simp [BestRec.init]
    · intro q hq
      simp only [compose_keyframe] at hq ⊢
      rw [hobs] at hq
      rw [hbest]
      simp only [List.nil_append] at hq
      simpa [BestRec.init] using
        (foldl_max_le_mem 0 (charObserved out threshold max_iters 0)).2 q hq
  · intro env threshold max_corrections scene_id duration_seconds asset obs
      retried h
    exact generate_scene_video_last_obs env threshold max_corrections scene_id
      duration_seconds asset obs retried h

theorem okOracle_char_run :
    generate_character_sheet okOracle (8 / 10) 3 =
      (⟨"https://kf/u1.jpg", "kf/p1.jpg", 82 / 100, 1⟩, [82 / 100]) := by
  norm_num [generate_character_sheet, charGo, okOracle, plainScore,
    BestRec.init]

/-- C1 amended witness: the video part evaluated on the dropping-score oracle,
and the character upper bound evaluated at the observed score 0.82 of a
one-attempt accepting run. -/
theorem monotonic_best_amended_witness :
    ([(7 : ℚ) / 10, 5 / 10, 2 / 5].getLast? = some ((2 : ℚ) / 5)) ∧
    ((82 : ℚ) / 100 ≤
      (generate_character_sheet okOracle (8 / 10) 3).1.consistency_score) := by
  constructor
  · exact monotonic_best_amended.2.2 envDrop (8 / 10) 2 1 8
      ⟨1, "https://vid/corr.mp4", 2 / 5, 2⟩ [7 / 10, 5 / 10, 2 / 5] false
      envDrop_run
  · exact (monotonic_best_amended.1 okOracle (8 / 10) 3).2 (82 / 100)
      (by rw [show (generate_character_sheet okOracle (8 / 10) 3).2 =
          [82 / 100] from congrArg Prod.snd okOracle_char_run]; simp)

theorem envExtended_run :
    generate_scene_video envExtended (8 / 10) 2 5 12 =
      Except.ok (⟨5, "https://vid/retry.mp4", 7 / 10, 0⟩,
        [4 / 10, 7 / 10], true) := by
  norm_num [generate_scene_video, corrGo, envExtended, plainScore,
    EXTENDED_RETRY_THRESHOLD]

/-- C2 witness: a 12-second extended scene with initial score 0.40 below the
extended-retry threshold: zero correction passes and the one-shot retry fired. -/
theorem video_tier_spec_witness :
    (⟨5, "https://vid/retry.mp4", 7 / 10, 0⟩ : VideoAsset).correction_passes =
        0 ∧
    (true = true ↔
      envExtended.initScore.overall_score < EXTENDED_RETRY_THRESHOLD) :=
  (video_tier_spec envExtended (8 / 10) 2 5 12
      ⟨5, "https://vid/retry.mp4", 7 / 10, 0⟩ [4 / 10, 7 / 10] true
      envExtended_run).2 (by norm_num)

/-- C10 witness: an 8-second scene whose first correction call stays
moderated: correction_passes is 1 although the returned video is still the
initial artifact and only the initial score was observed. -/
theorem video_correction_counter_spec_witness :
    generate_scene_video envCorrBlocked (8 / 10) 2 3 8 =
      Except.ok (⟨3, "https://vid/initial.mp4",
        envCorrBlocked.initScore.overall_score, 1⟩,
        [envCorrBlocked.initScore.overall_score], false) :=
  video_correction_counter_spec envCorrBlocked (8 / 10) 2 3 8
    "https://vid/initial.mp4" (by norm_num) (by norm_num) rfl
    (by norm_num [envCorrBlocked, plainScore]) rfl

/-- C5: a still-moderated attempt in the character and keyframe loops is
skipped entirely: the loop index advances to the next attempt with the best
record untouched and no verification performed, and when every attempt is
blocked the loop returns the zero-initialized best (score 0, empty artifact
reference) with an empty observed-score list, without raising. -/
theorem moderation_skip_spec (out : Nat → GenAttempt) (threshold : ℚ)
    (m scene_id : Nat) (portraits : List String) (prev : Option String)
    (attempt n : Nat) (best : BestRec) (obs : List ℚ) :
    (out (attempt + 1) = GenAttempt.blocked →
      charGo out threshold (n + 1) attempt best obs =
        charGo out threshold n (attempt + 1) best obs) ∧
    ((∀ i, out i = GenAttempt.blocked) →
      generate_character_sheet out threshold m = (⟨"", "", 0, m⟩, [])) ∧
    ((∀ i, out i = GenAttempt.blocked) →
      (compose_keyframe out threshold m scene_id portraits prev).1 =
        ⟨scene_id, "", "", 0, m - 1⟩ ∧
      (compose_keyframe out threshold m scene_id portraits prev).2.2 = []) := by
  refine ⟨?_, ?_, ?_⟩
  · intro hb
    simp [charGo, hb]
  · intro hout
    have h := charGo_all_blocked out threshold hout m 0 BestRec.init []
    simp only [generate_character_sheet, h]
    simp [BestRec.init]
  · intro hout
    obtain ⟨h1, h2, h3⟩ := kfGo_all_blocked out threshold
      (build_ref_urls portraits prev) hout m 0 ⟨BestRec.init, none, none⟩ [] []
    constructor
    · simp only [compose_keyframe]
      rw [h1, h2]
      simp [BestRec.init]
    · simp only [compose_keyframe]
      rw [h3]

/-- C5 witness: the always-blocked oracle over three attempts returns the
zero-initialized best for both the character and the keyframe loop. -/
theorem moderation_skip_spec_witness :
    generate_character_sheet blockedOracle (8 / 10) 3 = (⟨"", "", 0, 3⟩, []) ∧
    (compose_keyframe blockedOracle (8 / 10) 3 1 [] none).1 =
      ⟨1, "", "", 0, 2⟩ := by
  constructor
  · exact (moderation_skip_spec blockedOracle (8 / 10) 3 1 [] none 0 0
      BestRec.init []).2.1 (fun i => rfl)
  · exact ((moderation_skip_spec blockedOracle (8 / 10) 3 1 [] none 0 0
      BestRec.init []).2.2 (fun i => rfl)).1

/-- C6: keyframes are composed sequentially, one scene at a time; the first
scene's composition request carries only its (at most two) character
portraits, every later scene's request additionally carries the prior scene's
resolved keyframe URL as a continuity reference whenever that URL is
non-empty, and no request ever carries more than three reference images. -/
theorem keyframe_chaining_spec (char_map : List (String × String))
    (threshold : ℚ) (max_iters : Nat) (scenes : List SceneK) :
    (keyframeStage char_map threshold max_iters scenes none).length =
      scenes.length ∧
    (∀ kf sc,
      (keyframeStage char_map threshold max_iters scenes none).get? 0 =
        some kf →
      scenes.get? 0 = some sc →
      kf.2 = (scene_portraits char_map sc.characters_present).take 2) ∧
    (∀ j kf1 kf2 sc,
      (keyframeStage char_map threshold max_iters scenes none).get? j =
        some kf1 →
      (keyframeStage char_map threshold max_iters scenes none).get? (j + 1) =
        some kf2 →
      scenes.get? (j + 1) = some sc →
      kf2.2 = if kf1.1.keyframe_url ≠ "" then
          (scene_portraits char_map sc.characters_present).take 2 ++
            [kf1.1.keyframe_url]
        else (scene_portraits char_map sc.characters_present).take 2) ∧
    (∀ p ∈ keyframeStage char_map threshold max_iters scenes none,
      p.2.length ≤ 3) := by
  refine ⟨keyframeStage_length char_map threshold max_iters scenes none,
    ?_, ?_, ?_⟩
  · intro kf sc h1 h2
    have h := keyframeStage_get_zero char_map threshold max_iters scenes none
      kf sc h1 h2
    simpa [build_ref_urls_none] using h
  · intro j kf1 kf2 sc h1 h2 h3
    have h := keyframeStage_get_succ char_map threshold max_iters scenes none j
      kf1 kf2 sc h1 h2 h3
    rw [h, build_ref_urls_some]
  · intro p hp
    obtain ⟨ports, prev2, hps⟩ := keyframeStage_refs_shape char_map threshold
      max_iters scenes none p hp
    rw [hps]
    exact build_ref_urls_length ports prev2

theorem stageW_run :
    keyframeStage charMapW (8 / 10) 3 [sceneW1, sceneW2] none =
      [(⟨1, "https://kf/u1.jpg", "kf/p1.jpg", 82 / 100, 0⟩,
          ["https://char/luna.jpg"]),
        (⟨2, "https://kf/u1.jpg", "kf/p1.jpg", 82 / 100, 0⟩,
          ["https://char/luna.jpg", "https://char/rex.jpg",
            "https://kf/u1.jpg"])] := by
  norm_num [keyframeStage, compose_keyframe, kfGo, scene_portraits,
    build_ref_urls, charMapW, sceneW1, sceneW2, okOracle, plainScore,
    BestRec.init, List.lookup]
  decide

/-- C6 witness: a concrete two-scene run; the second scene's composition
request carries the two character portraits plus the first scene's resolved
keyframe URL, three reference images in total, while the first scene's
request carries only its single portrait. -/
theorem keyframe_chaining_spec_witness :
    (["https://char/luna.jpg", "https://char/rex.jpg",
        "https://kf/u1.jpg"] : List String) =
      if ("https://kf/u1.jpg" : String) ≠ "" then
        (scene_portraits charMapW sceneW2.characters_present).take 2 ++
          ["https://kf/u1.jpg"]
      else (scene_portraits charMapW sceneW2.characters_present).take 2 :=
  (keyframe_chaining_spec charMapW (8 / 10) 3 [sceneW1, sceneW2]).2.2.1 0
    ((⟨1, "https://kf/u1.jpg", "kf/p1.jpg", 82 / 100, 0⟩ : KeyframeAsset),
      ["https://char/luna.jpg"])
    ((⟨2, "https://kf/u1.jpg", "kf/p1.jpg", 82 / 100, 0⟩ : KeyframeAsset),
      ["https://char/luna.jpg", "https://char/rex.jpg", "https://kf/u1.jpg"])
    sceneW2 (by rw [stageW_run]; rfl) (by rw [stageW_run]; rfl) rfl

/-- C9: every keyframe iteration after the first runs in single-image edit
mode on the best URL recorded so far; if the first iteration was skipped by
moderation, iteration two's fix prompt is derived from an empty issue list
and its input image reference is the zero-initialized empty string, yet the
edit request is still issued. -/
theorem keyframe_edit_reference_spec (out : Nat → GenAttempt) (threshold : ℚ)
    (max_iters scene_id : Nat) (portraits : List String) (prev : Option String)
    (hm : 2 ≤ max_iters) (hb : out 1 = GenAttempt.blocked) :
    ((compose_keyframe out threshold max_iters scene_id portraits
        prev).2.1).take 2 =
      [SampleRequest.compose (build_ref_urls portraits prev),
        SampleRequest.edit "" (fix_prompt_from_issues [] none)] ∧
    (∀ r ∈ ((compose_keyframe out threshold max_iters scene_id portraits
        prev).2.1).drop 1, r.isEdit = true) := by
  obtain ⟨k, rfl⟩ : ∃ k, max_iters = k + 2 := ⟨max_iters - 2, by omega⟩
  have hstep1 : kfGo out threshold (build_ref_urls portraits prev) (k + 2) 0
      ⟨BestRec.init, none, none⟩ [] [] =
      kfGo out threshold (build_ref_urls portraits prev) (k + 1) 1
        ⟨BestRec.init, none, none⟩
        [SampleRequest.compose (build_ref_urls portraits prev)] [] := by
    simp [kfGo, hb]
  obtain ⟨δ, hδ, hed⟩ : ∃ δ,
      (kfGo out threshold (build_ref_urls portraits prev) (k + 2) 0
        ⟨BestRec.init, none, none⟩ [] []).2.2.1 =
        SampleRequest.compose (build_ref_urls portraits prev) ::
          SampleRequest.edit "" (fix_prompt_from_issues [] none) :: δ ∧
        ∀ r ∈ δ, r.isEdit = true := by
    rw [hstep1]
    cases hout2 : out 2 with
    | blocked =>
        have h2 : kfGo out threshold (build_ref_urls portraits prev) (k + 1) 1
            ⟨BestRec.init, none, none⟩
            [SampleRequest.compose (build_ref_urls portraits prev)] [] =
            kfGo out threshold (build_ref_urls portraits prev) k 2
              ⟨BestRec.init, none, none⟩
              [SampleRequest.compose (build_ref_urls portraits prev),
                SampleRequest.edit "" (fix_prompt_from_issues [] none)] [] := by
          simp [kfGo, hout2, BestRec.init]
        rw [h2]
        obtain ⟨δ, hδ, hed⟩ := kfGo_reqs_split out threshold
          (build_ref_urls portraits prev) k 2 ⟨BestRec.init, none, none⟩
          [SampleRequest.compose (build_ref_urls portraits prev),
            SampleRequest.edit "" (fix_prompt_from_issues [] none)] []
        exact ⟨δ, by rw [hδ]; rfl, fun r hr => hed (by omega) r hr⟩
    | ok url path score =>
        by_cases ht : threshold ≤ score.overall_score
        · refine ⟨[], ?_, by intro r hr; cases hr⟩
          simp [kfGo, hout2, ht, BestRec.init]
        · have h2 : kfGo out threshold (build_ref_urls portraits prev) (k + 1)
              1 ⟨BestRec.init, none, none⟩
              [SampleRequest.compose (build_ref_urls portraits prev)] [] =
              kfGo out threshold (build_ref_urls portraits prev) k 2
                ⟨(if BestRec.init.score < score.overall_score then
                    BestRec.mk score.overall_score url path
                  else BestRec.init), some score, score.fix_prompt⟩
                [SampleRequest.compose (build_ref_urls portraits prev),
                  SampleRequest.edit "" (fix_prompt_from_issues [] none)]
                [score.overall_score] := by
            simp [kfGo, hout2, ht, BestRec.init]
          rw [h2]
          obtain ⟨δ, hδ, hed⟩ := kfGo_reqs_split out threshold
            (build_ref_urls portraits prev) k 2
            ⟨(if BestRec.init.score < score.overall_score then
                BestRec.mk score.overall_score url path
              else BestRec.init), some score, score.fix_prompt⟩
            [SampleRequest.compose (build_ref_urls portraits prev),
              SampleRequest.edit "" (fix_prompt_from_issues [] none)]
            [score.overall_score]
          exact ⟨δ, by rw [hδ]; rfl, fun r hr => hed (by omega) r hr⟩
  constructor
  · simp only [compose_keyframe]
    rw [hδ]
    rfl
  · intro r hr
    simp only [compose_keyframe] at hr
    rw [hδ] at hr
    simp only [List.drop_succ_cons, List.drop_zero] at hr
    rcases List.mem_cons.1 hr with rfl | hr
    · rfl
    · exact hed r hr

/-- C9 witness: with iteration one moderated and iteration two clean, the two
issued requests are the initial composition and an edit of the empty URL with
the empty-issues fix prompt. -/
theorem keyframe_edit_reference_spec_witness :
    ((compose_keyframe blockedFirstOracle (8 / 10) 3 1 [] none).2.1).take 2 =
      [SampleRequest.compose (build_ref_urls [] none),
        SampleRequest.edit "" (fix_prompt_from_issues [] none)] :=
  (keyframe_edit_reference_spec blockedFirstOracle (8 / 10) 3 1 [] none
    (by omega) rfl).1

end GrokSpicy
